import Mathlib

/-!
Verification development for the `ahofa` NFA-reduction tool.

Shallow embedding of:
* `src/reduction/src/pcap_reader.h` — `get_payload`, the protocol walker
  that locates the application payload inside one captured frame;
* `src/src/exe/reduce.cpp` — `label_states`, `read_state_labels`,
  `check_float` and the option handling of `main`;
* `src/src/exe/par_test.cpp` — the derived error metrics computed from the
  aggregated `ErrorStats` counters.

Machine integers are modelled as `Nat` with explicit `% 2 ^ 64` where the
C++ performs `size_t` arithmetic; floating-point results of the metric
formulas are idealised as rationals (the claims are about the formulas'
shape, not about rounding).  Memory reads performed by the C++ code through
raw pointers are modelled by `List.getD` over the byte list that the packet
pointer addresses, with reads past the end of the modelled memory returning
`0` (the C++ behaviour there is undefined; the model makes it total).
-/

namespace Ahofa

/-! ## Frame model (pcap_pkthdr and the packet byte buffer) -/

/-- The parts of `struct pcap_pkthdr` that `get_payload` can see:
`caplen` (bytes actually captured) and `len` (original on-wire length). -/
structure Pkthdr where
  caplen : Nat
  len : Nat
deriving DecidableEq, Repr

/-- One byte of the memory addressed by the packet pointer (`packet[i]`).
Reads beyond the modelled memory give `0`. -/
def byteAt (pkt : List Nat) (i : Nat) : Nat :=
  pkt.getD i 0

/-- `ntohs` of the 16-bit big-endian field stored at bytes `i`, `i+1`. -/
def be16 (pkt : List Nat) (i : Nat) : Nat :=
  256 * byteAt pkt i + byteAt pkt (i + 1)

/-! ## Protocol constants (netinet headers) -/

def ETHERTYPE_VLAN : Nat := 33024  -- 0x8100
def ETHERTYPE_IP : Nat := 2048    -- 0x0800
def ETHERTYPE_IPV6 : Nat := 34525  -- 0x86DD

def IPPROTO_TCP : Nat := 6
def IPPROTO_UDP : Nat := 17
def IPPROTO_IPIP : Nat := 4
def IPPROTO_ESP : Nat := 50
def IPPROTO_ICMP : Nat := 1
def IPPROTO_ICMPV6 : Nat := 58
def IPPROTO_FRAGMENT : Nat := 44
def IPPROTO_IPV6 : Nat := 41

/-! ## `get_payload` (pcap_reader.h, lines 80-172)

The function is split into the pre-loop part (Ethernet / VLAN / network
layer dispatch, lines 84-112) and the header-skipping `do ... while (cond)`
loop (lines 114-163).  The loop is embedded with explicit fuel; theorem
`skipLoop_fuel_sufficient` shows the fuel chosen in `get_payload` never
runs out, i.e. the C++ loop terminates. -/

/-- Offset of the network-layer header: `sizeof(ether_header) = 14`, or
`sizeof(vlan_ethhdr) = 18` after a VLAN tag (lines 85-93). -/
def ipStart (pkt : List Nat) : Nat :=
  if be16 pkt 12 = ETHERTYPE_VLAN then 18 else 14

/-- The effective Ethernet type: re-read from the post-tag field of the
VLAN header when the outer type is `ETHERTYPE_VLAN` (lines 87-93). -/
def etherTypeOf (pkt : List Nat) : Nat :=
  if be16 pkt 12 = ETHERTYPE_VLAN then be16 pkt 16 else be16 pkt 12

/-- Network-layer dispatch (lines 97-112): returns the offset just past the
IP header together with the initial transport protocol number, or `none`
when the Ethernet type is unsupported (the C++ returns `packet_end`).
For IPv4 the protocol number is `ip_p`, byte 9 of the IPv4 header; for
IPv6 it is `ip6_nxt`, byte 6 of the IPv6 header. -/
def loopInit (pkt : List Nat) : Option (Nat × Nat) :=
  if etherTypeOf pkt = ETHERTYPE_IP then
    some (ipStart pkt + 20, byteAt pkt (ipStart pkt + 9))
  else if etherTypeOf pkt = ETHERTYPE_IPV6 then
    some (ipStart pkt + 40, byteAt pkt (ipStart pkt + 6))
  else
    none

/-- The `do ... while (cond)` loop of lines 114-163, with explicit fuel.
Result `some (some o)` means the loop exited normally with offset `o`
(the final `offset > caplen` check is applied by the caller); `some none`
is the in-loop `return packet + header->caplen` for an unsupported
protocol number (lines 159-162); `none` is fuel exhaustion.

Branches, in source order: TCP (data-offset high nibble of byte 12, times
4), UDP (+8), IP-in-IP (+20, re-read `ip_p`, continue), ESP (+8),
ICMP (+8), ICMPv6 (+8), IPv6 fragment (+8, re-read `ip6f_nxt`, continue),
IPv6-in-IPv6 (+40; the C++ re-reads `ip6_nxt` into `l4_proto` but does
NOT set `cond`, so the loop exits and that value is never consumed). -/
def skipLoop (pkt : List Nat) : Nat → Nat → Nat → Option (Option Nat)
  | 0, _, _ => none
  | fuel + 1, offset, l4 =>
    if l4 = IPPROTO_TCP then some (some (offset + 4 * (byteAt pkt (offset + 12) / 16)))
    else if l4 = IPPROTO_UDP then some (some (offset + 8))
    else if l4 = IPPROTO_IPIP then skipLoop pkt fuel (offset + 20) (byteAt pkt (offset + 9))
    else if l4 = IPPROTO_ESP then some (some (offset + 8))
    else if l4 = IPPROTO_ICMP then some (some (offset + 8))
    else if l4 = IPPROTO_ICMPV6 then some (some (offset + 8))
    else if l4 = IPPROTO_FRAGMENT then skipLoop pkt fuel (offset + 8) (byteAt pkt offset)
    else if l4 = IPPROTO_IPV6 then some (some (offset + 40))
    else some (none)

/-- `get_payload` with the loop fuel as a parameter; the result is the
offset of the returned payload pointer from `packet`.  `none` would mean
the fuel ran out (never happens for the fuel used by `get_payload`). -/
def get_payloadFuel (fuel : Nat) (pkt : List Nat) (header : Pkthdr) : Option Nat :=
  match loopInit pkt with
  | none => some header.caplen
  | some (off, l4) =>
    match skipLoop pkt fuel off l4 with
    | none => none
    | some none => some header.caplen
    | some (some o) => some (if header.caplen < o then header.caplen else o)

/-- `get_payload(packet, header)` (lines 80-172): offset of the returned
pointer from `packet`.  Only `header.caplen` is ever consulted;
`header.len` (the original on-wire length) is not used. -/
def get_payload (pkt : List Nat) (header : Pkthdr) : Option Nat :=
  get_payloadFuel (pkt.length + 3) pkt header

/-! ## Offsets at which a header struct is aliased onto the buffer

Instrumented copy of the walker that records every offset at which the
C++ aliases a header struct onto the buffer and reads a field from it:
the Ethernet/VLAN header at 0, the IP/IPv6 header at `ipStart`, and, in
the loop, the TCP / inner-IP / fragment / inner-IPv6 headers at the
current offset (UDP, ESP, ICMP, ICMPv6 advance by a constant without
reading any field). -/

def skipLoopOffsets (pkt : List Nat) : Nat → Nat → Nat → List Nat
  | 0, _, _ => []
  | fuel + 1, offset, l4 =>
    if l4 = IPPROTO_TCP then [offset]
    else if l4 = IPPROTO_UDP then []
    else if l4 = IPPROTO_IPIP then
      offset :: skipLoopOffsets pkt fuel (offset + 20) (byteAt pkt (offset + 9))
    else if l4 = IPPROTO_ESP then []
    else if l4 = IPPROTO_ICMP then []
    else if l4 = IPPROTO_ICMPV6 then []
    else if l4 = IPPROTO_FRAGMENT then
      offset :: skipLoopOffsets pkt fuel (offset + 8) (byteAt pkt offset)
    else if l4 = IPPROTO_IPV6 then [offset]
    else []

/-- All offsets at which `get_payload` decodes a header. -/
def decodeOffsets (pkt : List Nat) : List Nat :=
  match loopInit pkt with
  | none => [0]
  | some (off, l4) => 0 :: ipStart pkt :: skipLoopOffsets pkt (pkt.length + 3) off l4

/-! ## Concrete frames used as counterexamples / failing inputs -/

/-- Ethernet+IPv4 frame, protocol IP-in-IP, captured length 30: the inner
IPv4 header is decoded at offset 34, past the 30 captured bytes. -/
def c2pkt : List Nat :=
  (List.range 30).map fun i =>
    if i = 12 then 8 else if i = 13 then 0 else if i = 23 then 4 else 0

/-- Ethernet+IPv6 frame, outer next-header 41 (IPv6-in-IPv6), inner IPv6
next-header 6 (TCP), 20-byte TCP header, 4 payload bytes; 118 bytes. -/
def c3pkt : List Nat :=
  (List.range 118).map fun i =>
    if i = 12 then 134 else if i = 13 then 221
    else if i = 20 then 41 else if i = 60 then 6
    else if i = 106 then 80 else 0

/-! ## `label_states` (reduce.cpp, lines 33-44)

`nfa.parse_word(payload, len, [&bm](State s){ bm[s] = 1; })` fills a fresh
per-payload boolean bitmap `bm` with the states visited while replaying
one payload.  `parse_word` itself lives in `nfa.hpp`, which is not part of
the sources; the bitmap it produces is abstracted here as an arbitrary
predicate `visited`.  The remaining lines are embedded verbatim: every
counter gains `bm[i]`, then the initial state's counter gains 1. -/

def label_states (visited : Nat → Bool) (state_freq : List Nat) (initial : Nat) : List Nat :=
  let f := state_freq.mapIdx fun i c => c + (if visited i then 1 else 0)
  f.set initial (f.getD initial 0 + 1)

/-! ## `ErrorStats` and the derived metrics (par_test.cpp, lines 52-63)

The `ErrorStats` fields are `size_t` counters (declared in
`nfa_error.hpp`, not under the sources; the fields used by `main` are
modelled).  `wrong_acceptances` is the `size_t` subtraction
`aggr.accepted_reduced - aggr.accepted_target`, i.e. subtraction modulo
`2 ^ 64`; the three quotients are idealised over `ℚ`. -/

structure ErrorStats where
  total : Nat
  accepted_target : Nat
  accepted_reduced : Nat
  wrongly_classified : Nat
  correctly_classified : Nat
deriving DecidableEq, Repr

def U64 : Nat := 2 ^ 64

/-- `size_t wrong_acceptances = aggr.accepted_reduced - aggr.accepted_target`
(line 58): unsigned 64-bit subtraction. -/
def wrong_acceptances (s : ErrorStats) : Nat :=
  (s.accepted_reduced + U64 - s.accepted_target) % U64

/-- `float pe = wrong_acceptances * 1.0 / aggr.total` (line 60). -/
def pe (s : ErrorStats) : ℚ :=
  (wrong_acceptances s : ℚ) / (s.total : ℚ)

/-- `float ce = aggr.wrongly_classified * 1.0 / aggr.total` (line 61). -/
def ce (s : ErrorStats) : ℚ :=
  (s.wrongly_classified : ℚ) / (s.total : ℚ)

/-- `float cls_ratio = aggr.correctly_classified * 1.0 /
(aggr.correctly_classified + aggr.wrongly_classified)` (lines 62-63). -/
def cls_rat (s : ErrorStats) : ℚ :=
  (s.correctly_classified : ℚ) /
    ((s.correctly_classified : ℚ) + (s.wrongly_classified : ℚ))

/-- The spec's predicted-error proxy: the (signed) difference between
reduced-accept and target-accept counts, normalized by total. -/
def specPe (s : ErrorStats) : ℚ :=
  ((s.accepted_reduced : ℚ) - (s.accepted_target : ℚ)) / (s.total : ℚ)

/-- The spec's classification error: wrongly-classified over total. -/
def specCe (s : ErrorStats) : ℚ :=
  (s.wrongly_classified : ℚ) / (s.total : ℚ)

/-- The spec's classification ratio:
correctly-classified over (correctly + wrongly classified). -/
def specClsRat (s : ErrorStats) : ℚ :=
  (s.correctly_classified : ℚ) /
    ((s.correctly_classified : ℚ) + (s.wrongly_classified : ℚ))

/-! ## `check_float` and the option handling (reduce.cpp, lines 77-135) -/

/-- `check_float(x, max_val, min_val)` (lines 77-85): returns `true` iff
the C++ function throws, i.e. iff `x > max_val || x < min_val`. -/
def check_float (x max_val min_val : ℚ) : Bool :=
  decide (max_val < x) || decide (x < min_val)

/-- The `-e` / `-p` option path of `main` (lines 91-92 and 118-127): the
value is initialised to `-1`; if the flag is present its argument is
validated with `check_float(x, 1, 0)` and the command aborts when that
throws; if the flag is absent the `-1` default is passed on to the
reduction unvalidated. -/
def parse_opt : Option ℚ → Except String ℚ
  | none => Except.ok (-1)
  | some x =>
    if check_float x 1 0 then Except.error "invalid float value"
    else Except.ok x

/-! ## `read_state_labels` (reduce.cpp, lines 46-75)

The automaton type `Nfa` lives in `nfa.hpp`, which is not among the
sources; only the membership test used here is modelled. -/

/-- Modelled from the spec: the `Nfa` of `nfa.hpp` (not under the
sources), restricted to what `read_state_labels` consults — its set of
states; `is_state s` is membership of `s` in that set. -/
structure Nfa where
  states : List Nat
deriving DecidableEq, Repr

def Nfa.is_state (n : Nfa) (s : Nat) : Bool :=
  n.states.contains s

/-- `buf.substr(0, buf.find("#"))` (line 58): the line up to the first
comment character. -/
def stripComment (l : List Char) : List Char :=
  l.takeWhile fun c => !(c = '#')

/-- Whitespace skipped by `istream >> n` inside one line. -/
def isWsChar (c : Char) : Bool :=
  c = ' ' || c = '\t' || c = '\r'

def isDigitCh (c : Char) : Bool :=
  48 ≤ c.toNat && c.toNat ≤ 57

def natOfDigits (ds : List Char) : Nat :=
  ds.foldl (fun a c => 10 * a + (c.toNat - 48)) 0

/-- One `iss >> n` extraction of an unsigned number: skip whitespace,
then read a maximal digit run; fails when no digit follows (numerals are
modelled as plain digit runs). -/
def parseNatTok (cs : List Char) : Option (Nat × List Char) :=
  let cs1 := cs.dropWhile isWsChar
  let ds := cs1.takeWhile isDigitCh
  if ds.isEmpty then none
  else some (natOfDigits ds, cs1.drop ds.length)

/-- `iss >> s >> l` (line 65): two extractions; trailing text is ignored. -/
def parsePair (cs : List Char) : Option (Nat × Nat) :=
  match parseNatTok cs with
  | none => none
  | some (s, rest) =>
    match parseNatTok rest with
    | none => none
    | some (v, _) => some (s, v)

/-- `ret[s] = l` on a `std::map`: overwrite the value when the key is
present, insert it otherwise. -/
def insertPair : List (Nat × Nat) → Nat → Nat → List (Nat × Nat)
  | [], s, v => [(s, v)]
  | p :: t, s, v => if p.1 = s then (s, v) :: t else p :: insertPair t s v

def lookupPair (m : List (Nat × Nat)) (s : Nat) : Option Nat :=
  match m.find? (fun p => p.1 = s) with
  | none => none
  | some p => some p.2

/-- The `getline` loop of `read_state_labels` (lines 56-72) over the
remaining lines, with `acc` the map built so far. -/
def rslAux (nfa : Nfa) (acc : List (Nat × Nat)) :
    List (List Char) → Except String (List (Nat × Nat))
  | [] => Except.ok acc
  | l :: ls =>
    let b := stripComment l
    if b.isEmpty then rslAux nfa acc ls
    else
      match parsePair b with
      | none => Except.error "invalid state labels syntax"
      | some (s, v) =>
        if nfa.is_state s then rslAux nfa (insertPair acc s v) ls
        else Except.error ("invalid NFA state: " ++ toString s)

/-- `read_state_labels(nfa, fname)` (lines 46-75): `none` stands for a
file that cannot be opened (line 51), `some ls` for the file's lines. -/
def read_state_labels (nfa : Nfa) :
    Option (List (List Char)) → Except String (List (Nat × Nat))
  | none => Except.error "error loading NFA"
  | some ls => rslAux nfa [] ls

/-! ## Lemmas about the header-skipping loop -/

/-- Reads past the modelled memory give `0`. -/
theorem byteAt_oob (pkt : List Nat) (i : Nat) (h : pkt.length ≤ i) :
    byteAt pkt i = 0 :=
  List.getD_eq_default pkt 0 h

/-- One unfolding step of the loop. -/
theorem skipLoop_succ (pkt : List Nat) (fuel offset l4 : Nat) :
    skipLoop pkt (fuel + 1) offset l4 =
      if l4 = IPPROTO_TCP then some (some (offset + 4 * (byteAt pkt (offset + 12) / 16)))
      else if l4 = IPPROTO_UDP then some (some (offset + 8))
      else if l4 = IPPROTO_IPIP then skipLoop pkt fuel (offset + 20) (byteAt pkt (offset + 9))
      else if l4 = IPPROTO_ESP then some (some (offset + 8))
      else if l4 = IPPROTO_ICMP then some (some (offset + 8))
      else if l4 = IPPROTO_ICMPV6 then some (some (offset + 8))
      else if l4 = IPPROTO_FRAGMENT then skipLoop pkt fuel (offset + 8) (byteAt pkt offset)
      else if l4 = IPPROTO_IPV6 then some (some (offset + 40))
      else some (none) := rfl

/-- The IP-in-IP continuation branch: advance by the fixed IPv4 header
size 20 and take the new protocol number from the inner header. -/
theorem skipLoop_ipip (pkt : List Nat) (fuel offset : Nat) :
    skipLoop pkt (fuel + 1) offset IPPROTO_IPIP =
      skipLoop pkt fuel (offset + 20) (byteAt pkt (offset + 9)) := rfl

/-- The IPv6-fragment continuation branch: advance by the fixed fragment
header size 8 and take the new next-header from the extension header. -/
theorem skipLoop_frag (pkt : List Nat) (fuel offset : Nat) :
    skipLoop pkt (fuel + 1) offset IPPROTO_FRAGMENT =
      skipLoop pkt fuel (offset + 8) (byteAt pkt offset) := rfl

/-- The IPv6-in-IPv6 branch exits the loop with the offset advanced by
the fixed IPv6 header size 40 (the `cond` flag is never set there). -/
theorem skipLoop_ipv6 (pkt : List Nat) (fuel offset : Nat) :
    skipLoop pkt (fuel + 1) offset IPPROTO_IPV6 = some (some (offset + 40)) := rfl

/-- Protocol number 0 matches no branch: the loop hits the final `else`. -/
theorem skipLoop_proto_zero (pkt : List Nat) (fuel offset : Nat) :
    skipLoop pkt (fuel + 1) offset 0 = some (none) := rfl

/-- Once the offset has passed the end of the modelled memory, two units
of fuel always finish the loop: a continuation branch re-reads the
protocol number out of bounds, obtaining `0`, which no branch handles. -/
theorem skipLoop_fuel_sufficient (pkt : List Nat) :
    ∀ n off l4, pkt.length ≤ off + n → skipLoop pkt (n + 2) off l4 ≠ none := by
  intro n
  induction n with
  | zero =>
    intro off l4 h
    simp only [Nat.add_zero] at h
    have e0 : (0 : Nat) + 2 = 1 + 1 := rfl
    rw [e0, skipLoop_succ]
    split_ifs with h1 h2 h3 h4 h5 h6 h7 h8
    · simp
    · simp
    · rw [byteAt_oob pkt (off + 9) (by omega), skipLoop_proto_zero]
      simp
    · simp
    · simp
    · simp
    · rw [byteAt_oob pkt off (by omega), skipLoop_proto_zero]
      simp
    · simp
    · simp
  | succ n ih =>
    intro off l4 h
    have e1 : n + 1 + 2 = (n + 2) + 1 := rfl
    rw [e1, skipLoop_succ]
    split_ifs with h1 h2 h3 h4 h5 h6 h7 h8
    · simp
    · simp
    · exact ih (off + 20) _ (by omega)
    · simp
    · simp
    · simp
    · exact ih (off + 8) _ (by omega)
    · simp
    · simp

/-- More fuel never changes a result the loop already produced. -/
theorem skipLoop_mono (pkt : List Nat) :
    ∀ f1 f2 off l4 r, f1 ≤ f2 → skipLoop pkt f1 off l4 = some r →
      skipLoop pkt f2 off l4 = some r := by
  intro f1
  induction f1 with
  | zero => intro f2 off l4 r _ hr; simp [skipLoop] at hr
  | succ f1 ih =>
    intro f2 off l4 r hle hr
    obtain ⟨f2, rfl⟩ : ∃ k, f2 = k + 1 := ⟨f2 - 1, by omega⟩
    simp only [skipLoop] at hr ⊢
    split_ifs at hr ⊢ with h1 h2 h3 h4 h5 h6 h7 h8
    · exact hr
    · exact hr
    · exact ih f2 _ _ r (by omega) hr
    · exact hr
    · exact hr
    · exact hr
    · exact ih f2 _ _ r (by omega) hr
    · exact hr
    · exact hr

/-- A normal loop exit never returns an offset below the one it started
from: every branch only adds to the offset. -/
theorem skipLoop_le (pkt : List Nat) :
    ∀ fuel off l4 r, skipLoop pkt fuel off l4 = some (some r) → off ≤ r := by
  intro fuel
  induction fuel with
  | zero => intro off l4 r hr; simp [skipLoop] at hr
  | succ fuel ih =>
    intro off l4 r hr
    simp only [skipLoop] at hr
    split_ifs at hr with h1 h2 h3 h4 h5 h6 h7 h8
    · simp only [Option.some.injEq] at hr; omega
    · simp only [Option.some.injEq] at hr; omega
    · have := ih _ _ _ hr; omega
    · simp only [Option.some.injEq] at hr; omega
    · simp only [Option.some.injEq] at hr; omega
    · simp only [Option.some.injEq] at hr; omega
    · have := ih _ _ _ hr; omega
    · simp only [Option.some.injEq] at hr; omega
    · simp at hr

/-- Every offset at which the loop decodes a header is bounded by the
offset of a normal loop exit. -/
theorem skipLoopOffsets_le (pkt : List Nat) :
    ∀ fuel off l4 o r, o ∈ skipLoopOffsets pkt fuel off l4 →
      skipLoop pkt fuel off l4 = some (some r) → o ≤ r := by
  intro fuel
  induction fuel with
  | zero => intro off l4 o r ho; simp [skipLoopOffsets] at ho
  | succ fuel ih =>
    intro off l4 o r ho hr
    simp only [skipLoopOffsets] at ho
    simp only [skipLoop] at hr
    split_ifs at ho hr with h1 h2 h3 h4 h5 h6 h7 h8
    · simp only [List.mem_singleton] at ho
      simp only [Option.some.injEq] at hr
      omega
    · simp at ho
    · rcases List.mem_cons.mp ho with rfl | ho
      · have := skipLoop_le pkt _ _ _ _ hr; omega
      · exact ih _ _ _ _ ho hr
    · simp at ho
    · simp at ho
    · simp at ho
    · rcases List.mem_cons.mp ho with rfl | ho
      · have := skipLoop_le pkt _ _ _ _ hr; omega
      · exact ih _ _ _ _ ho hr
    · simp only [List.mem_singleton] at ho
      simp only [Option.some.injEq] at hr
      omega
    · simp at ho

/-- The fuel used by `get_payload` suffices for every start state. -/
theorem skipLoop_total (pkt : List Nat) (off l4 : Nat) :
    skipLoop pkt (pkt.length + 3) off l4 ≠ none := by
  have h : pkt.length + 3 = (pkt.length + 1) + 2 := by omega
  rw [h]
  exact skipLoop_fuel_sufficient pkt (pkt.length + 1) off l4 (by omega)

/-- The initial offset handed to the loop lies strictly past `ipStart`. -/
theorem loopInit_off (pkt : List Nat) (off l4 : Nat)
    (h : loopInit pkt = some (off, l4)) : ipStart pkt < off := by
  unfold loopInit at h
  split_ifs at h <;> simp_all <;> omega

/-! ## Claim theorems for the payload extractor -/

/-- Claim C1: `get_payload` is total and returns an offset `r` with
`0 ≤ r ≤ caplen`; whenever the network-layer type is unsupported
(`loopInit` yields nothing), the loop hits an unsupported transport
protocol (`some none`), or the post-loop offset exceeds `caplen`, the
result is exactly `caplen` — the empty payload anchored at the end of the
captured bytes. -/
theorem get_payload_total_anchored (pkt : List Nat) (header : Pkthdr) :
    ∃ r, get_payload pkt header = some r ∧ r ≤ header.caplen ∧
      (loopInit pkt = none → r = header.caplen) ∧
      (∀ off l4, loopInit pkt = some (off, l4) →
        (skipLoop pkt (pkt.length + 3) off l4 = some (none) → r = header.caplen) ∧
        (∀ o, skipLoop pkt (pkt.length + 3) off l4 = some (some o) →
          header.caplen < o → r = header.caplen)) := by
  cases hli : loopInit pkt with
  | none =>
    refine ⟨header.caplen, ?_, Nat.le_refl _, fun _ => rfl, ?_⟩
    · simp [get_payload, get_payloadFuel, hli]
    · intro off l4 hcontra
      cases hcontra
  | some p =>
    obtain ⟨off0, l40⟩ := p
    cases hsl : skipLoop pkt (pkt.length + 3) off0 l40 with
    | none => exact absurd hsl (skipLoop_total pkt off0 l40)
    | some r0 =>
      cases r0 with
      | none =>
        refine ⟨header.caplen, ?_, Nat.le_refl _, ?_, ?_⟩
        · simp [get_payload, get_payloadFuel, hli, hsl]
        · intro hcontra; cases hcontra
        · intro off l4 hoff
          simp only [Option.some.injEq, Prod.mk.injEq] at hoff
          obtain ⟨rfl, rfl⟩ := hoff
          exact ⟨fun _ => rfl, fun o hsl2 _ => by simp [hsl] at hsl2⟩
      | some o =>
        refine ⟨if header.caplen < o then header.caplen else o, ?_, ?_, ?_, ?_⟩
        · simp [get_payload, get_payloadFuel, hli, hsl]
        · split_ifs <;> omega
        · intro hcontra; cases hcontra
        · intro off l4 hoff
          simp only [Option.some.injEq, Prod.mk.injEq] at hoff
          obtain ⟨rfl, rfl⟩ := hoff
          constructor
          · intro hsl2; simp [hsl] at hsl2
          · intro o2 hsl2 hlt
            rw [hsl] at hsl2
            simp only [Option.some.injEq] at hsl2
            subst hsl2
            exact if_pos hlt

/-- Witness for C1 at a frame with an unsupported Ethernet type: the
result is the captured length itself. -/
theorem get_payload_total_anchored_witness :
    get_payload [] ⟨5, 5⟩ = some 5 := by
  obtain ⟨r, h1, _, h3, _⟩ := get_payload_total_anchored [] ⟨5, 5⟩
  rw [h1, h3 (by decide)]

/-- Claim C2 counterexample: on an Ethernet+IPv4 frame whose protocol
byte says IP-in-IP but whose capture stops after 30 bytes, the walker
decodes the inner IPv4 header at offset 34, past the 30 captured bytes —
no header read is validated against the captured length beforehand. -/
theorem decode_past_caplen :
    34 ∈ decodeOffsets c2pkt ∧ (Pkthdr.mk 30 30).caplen < 34 := by
  constructor
  · decide
  · decide

/-- Claim C2 (amended): the only bound check is the single post-loop
comparison against `caplen`; whenever some header is decoded at an offset
past `caplen`, the final result degrades to the empty payload at
`caplen`. -/
theorem decode_past_caplen_clamped (pkt : List Nat) (header : Pkthdr) (o : Nat)
    (ho : o ∈ decodeOffsets pkt) (hgt : header.caplen < o) :
    get_payload pkt header = some header.caplen := by
  cases hli : loopInit pkt with
  | none =>
    unfold decodeOffsets at ho
    rw [hli] at ho
    simp only [List.mem_singleton] at ho
    omega
  | some p =>
    obtain ⟨off0, l40⟩ := p
    unfold decodeOffsets at ho
    rw [hli] at ho
    simp only [List.mem_cons] at ho
    cases hsl : skipLoop pkt (pkt.length + 3) off0 l40 with
    | none => exact absurd hsl (skipLoop_total pkt off0 l40)
    | some r0 =>
      cases r0 with
      | none => simp [get_payload, get_payloadFuel, hli, hsl]
      | some r =>
        have hor : o ≤ r := by
          rcases ho with rfl | rfl | ho3
          · omega
          · have h1 := loopInit_off pkt off0 l40 hli
            have h2 := skipLoop_le pkt _ _ _ _ hsl
            omega
          · exact skipLoopOffsets_le pkt _ _ _ _ _ ho3 hsl
        have hcr : header.caplen < r := by omega
        simp [get_payload, get_payloadFuel, hli, hsl, hcr]

/-- Witness for the amended C2 at the truncated IP-in-IP frame. -/
theorem decode_past_caplen_clamped_witness :
    get_payload c2pkt ⟨30, 30⟩ = some 30 :=
  decode_past_caplen_clamped c2pkt ⟨30, 30⟩ 34 (by decide) (by decide)

/-- Claim C3 (code bug): on an Ethernet+IPv6 frame carrying IPv6-in-IPv6
with an inner TCP header, extraction stops right after skipping the inner
IPv6 header (offset 94 = 14+40+40): the branch never sets the loop flag,
so the loop exits and the freshly stored next-header is dead.  Had the
loop continued with that next-header (6, TCP — second conjunct), it would
have decoded the TCP header and produced offset 114. -/
theorem ipv6_in_ipv6_exits_loop :
    get_payload c3pkt ⟨118, 118⟩ = some 94 ∧
    skipLoop c3pkt (c3pkt.length + 3) 94 (byteAt c3pkt 60) = some (some 114) := by
  constructor
  · decide
  · decide

/-- Claim C9: the result of `get_payload` depends only on the bytes and
the captured length; the original on-wire length field is never used. -/
theorem get_payload_ignores_origlen (pkt : List Nat) (caplen len1 len2 : Nat) :
    get_payload pkt ⟨caplen, len1⟩ = get_payload pkt ⟨caplen, len2⟩ := rfl

/-- Claim C10: `get_payload` terminates on every frame: the result is
defined (`isSome`) and independent of any fuel beyond the bound, and each
continuation branch (IP-in-IP, IPv6 fragment) strictly advances the
offset by its fixed positive header size (20 resp. 8) while every other
branch ends the loop. -/
theorem get_payload_terminates (pkt : List Nat) (header : Pkthdr) (fuel off : Nat) :
    (get_payload pkt header).isSome = true ∧
    (pkt.length + 3 ≤ fuel → get_payloadFuel fuel pkt header = get_payload pkt header) ∧
    skipLoop pkt (fuel + 1) off IPPROTO_IPIP =
      skipLoop pkt fuel (off + 20) (byteAt pkt (off + 9)) ∧
    skipLoop pkt (fuel + 1) off IPPROTO_FRAGMENT =
      skipLoop pkt fuel (off + 8) (byteAt pkt off) := by
  refine ⟨?_, ?_, skipLoop_ipip pkt fuel off, skipLoop_frag pkt fuel off⟩
  · cases hli : loopInit pkt with
    | none => simp [get_payload, get_payloadFuel, hli]
    | some p =>
      obtain ⟨off0, l40⟩ := p
      cases hsl : skipLoop pkt (pkt.length + 3) off0 l40 with
      | none => exact absurd hsl (skipLoop_total pkt off0 l40)
      | some r0 => cases r0 <;> simp [get_payload, get_payloadFuel, hli, hsl]
  · intro hfuel
    cases hli : loopInit pkt with
    | none => simp [get_payload, get_payloadFuel, hli]
    | some p =>
      obtain ⟨off0, l40⟩ := p
      cases hsl : skipLoop pkt (pkt.length + 3) off0 l40 with
      | none => exact absurd hsl (skipLoop_total pkt off0 l40)
      | some r0 =>
        have hm := skipLoop_mono pkt (pkt.length + 3) fuel off0 l40 r0 hfuel hsl
        cases r0 <;> simp [get_payload, get_payloadFuel, hli, hsl, hm]

/-- Witness for C10 at the empty frame with surplus fuel. -/
theorem get_payload_terminates_witness :
    (get_payload [] ⟨0, 0⟩).isSome = true ∧
    get_payloadFuel 7 [] ⟨0, 0⟩ = get_payload [] ⟨0, 0⟩ := by
  obtain ⟨h1, h2, _, _⟩ := get_payload_terminates [] ⟨0, 0⟩ 7 0
  exact ⟨h1, h2 (by decide)⟩

/-! ## Claim theorems for `label_states` and the metrics -/

/-- Claim C4: after one payload, each state's frequency counter grew by 1
exactly when the state was visited during that payload's replay (multiple
visits count once, via the per-payload bitmap abstracted as `visited`),
and the initial state's counter grew by one more, unconditionally; the
list length is preserved.  The automaton itself is only read, never
written (the embedding is a pure function of the visited set). -/
theorem label_states_increment (visited : Nat → Bool) (state_freq : List Nat)
    (initial s : Nat) (hi : initial < state_freq.length) (hs : s < state_freq.length) :
    (label_states visited state_freq initial).length = state_freq.length ∧
    (label_states visited state_freq initial).getD s 0 =
      state_freq.getD s 0 + (if visited s then 1 else 0) +
        (if s = initial then 1 else 0) := by
  have hfl : (state_freq.mapIdx fun i c => c + (if visited i then 1 else 0)).length
      = state_freq.length := by simp
  have hmap : ∀ (j : Nat), j < state_freq.length →
      (state_freq.mapIdx fun i c => c + (if visited i then 1 else 0)).getD j 0 =
        state_freq.getD j 0 + (if visited j then 1 else 0) := by
    intro j hj
    rw [List.getD_eq_getElem _ _ (by omega), List.getD_eq_getElem _ _ hj]
    simp [List.get_mapIdx state_freq
      (fun i c => c + (if visited i then 1 else 0)) j hj]
  refine ⟨by simp [label_states], ?_⟩
  simp only [label_states]
  rw [List.getD_eq_getElem _ _ (by simp; omega), List.getElem_set]
  by_cases hcase : initial = s
  · subst hcase
    rw [if_pos rfl, hmap initial hi]
    simp
  · rw [if_neg hcase, ← List.getD_eq_getElem _ 0 (by omega), hmap s hs]
    have h2 : ¬(s = initial) := fun h => hcase h.symm
    simp [h2]

/-- Witness for C4: three states with counters 5, state 1 visited,
initial state 0. -/
theorem label_states_increment_witness :
    (label_states (fun i => decide (i = 1)) [5, 5, 5] 0).length = 3 ∧
    (label_states (fun i => decide (i = 1)) [5, 5, 5] 0).getD 1 0 =
      [5, 5, 5].getD 1 0 + (if decide (1 = 1) then 1 else 0) +
        (if 1 = 0 then 1 else 0) := by
  have h := label_states_increment (fun i => decide (i = 1)) [5, 5, 5] 0 1
    (by decide) (by decide)
  exact ⟨h.1.trans rfl, h.2⟩

/-- Claim C5: the evaluation driver's derived metrics match the spec's
formulas — `pe` is the reduced-minus-target acceptance difference over
total, `ce` is wrongly-classified over total, `cls_ratio` is
correctly-classified over (correctly + wrongly classified) — whenever the
`size_t` subtraction does not wrap (target acceptances do not exceed
reduced ones; counts representable in 64 bits). -/
theorem metrics_formulas (s : ErrorStats)
    (h1 : s.accepted_target ≤ s.accepted_reduced)
    (h2 : s.accepted_reduced < U64) :
    pe s = specPe s ∧ ce s = specCe s ∧ cls_rat s = specClsRat s := by
  refine ⟨?_, rfl, rfl⟩
  unfold pe specPe wrong_acceptances
  have hw : (s.accepted_reduced + U64 - s.accepted_target) % U64
      = s.accepted_reduced - s.accepted_target := by
    have e : s.accepted_reduced + U64 - s.accepted_target
        = (s.accepted_reduced - s.accepted_target) + U64 := by omega
    rw [e, Nat.add_mod_right]
    exact Nat.mod_eq_of_lt (by omega)
  rw [hw, Nat.cast_sub h1]

/-- Witness for C5 at total 10, target-accepted 2, reduced-accepted 5. -/
theorem metrics_formulas_witness :
    pe ⟨10, 2, 5, 1, 9⟩ = specPe ⟨10, 2, 5, 1, 9⟩ ∧
    ce ⟨10, 2, 5, 1, 9⟩ = specCe ⟨10, 2, 5, 1, 9⟩ ∧
    cls_rat ⟨10, 2, 5, 1, 9⟩ = specClsRat ⟨10, 2, 5, 1, 9⟩ :=
  metrics_formulas ⟨10, 2, 5, 1, 9⟩ (by norm_num) (by norm_num [U64])

/-- Claim C6: when the target automaton accepts strictly more payloads
than the reduced one, the unsigned subtraction wraps modulo `2 ^ 64`:
the computed count equals `2 ^ 64` minus the true deficit, so the
reported proxy `pe` is a (huge) positive value instead of the negative
signed difference the spec formula would give. -/
theorem metrics_wraparound (s : ErrorStats)
    (h1 : s.accepted_reduced < s.accepted_target)
    (h2 : s.accepted_target < U64) (h3 : 0 < s.total) :
    wrong_acceptances s = U64 - (s.accepted_target - s.accepted_reduced) ∧
    0 < pe s ∧ specPe s < 0 := by
  have hw : wrong_acceptances s
      = U64 - (s.accepted_target - s.accepted_reduced) := by
    unfold wrong_acceptances
    have e : s.accepted_reduced + U64 - s.accepted_target
        = U64 - (s.accepted_target - s.accepted_reduced) := by omega
    rw [e]
    exact Nat.mod_eq_of_lt (by omega)
  refine ⟨hw, ?_, ?_⟩
  · unfold pe
    rw [hw]
    apply div_pos
    · have hp : 0 < U64 - (s.accepted_target - s.accepted_reduced) := by omega
      exact_mod_cast hp
    · exact_mod_cast h3
  · unfold specPe
    apply div_neg_of_neg_of_pos
    · have hlt : (s.accepted_reduced : ℚ) < (s.accepted_target : ℚ) := by
        exact_mod_cast h1
      linarith
    · exact_mod_cast h3

/-- Witness for C6: target accepts 5, reduced accepts 2, 10 payloads. -/
theorem metrics_wraparound_witness :
    wrong_acceptances ⟨10, 5, 2, 1, 9⟩ = U64 - 3 ∧
    0 < pe ⟨10, 5, 2, 1, 9⟩ ∧ specPe ⟨10, 5, 2, 1, 9⟩ < 0 := by
  have h := metrics_wraparound ⟨10, 5, 2, 1, 9⟩ (by norm_num)
    (by norm_num [U64]) (by norm_num)
  exact ⟨h.1, h.2.1, h.2.2⟩

/-- Claim C7 (code bug): the validator accepts the boundary values:
`check_float` only throws for `x > 1` or `x < 0`, so `pct = 1` and
`eps = 0` — outside the open interval `(0,1)` that both the spec and the
function's own error message demand — pass validation; and when a flag is
omitted the `-1` default reaches the reduction without any validation. -/
theorem check_float_boundary :
    check_float 1 1 0 = false ∧ check_float 0 1 0 = false ∧
    parse_opt (some 1) = Except.ok 1 ∧ parse_opt none = Except.ok (-1) ∧
    ¬ ((0 : ℚ) < 1 ∧ (1 : ℚ) < 1) ∧ ¬ ((0 : ℚ) < -1 ∧ (-1 : ℚ) < 1) := by
  have hcf1 : check_float 1 1 0 = false := by norm_num [check_float]
  have hcf0 : check_float 0 1 0 = false := by norm_num [check_float]
  refine ⟨hcf1, hcf0, by simp [parse_opt, hcf1], rfl, by norm_num, by norm_num⟩

/-! ## Claim theorem for `read_state_labels` -/

theorem parsePair_ne_nil {b : List Char} {pv : Nat × Nat}
    (h : parsePair b = some pv) : b.isEmpty = false := by
  cases hb : b.isEmpty
  · rfl
  · rw [List.isEmpty_iff] at hb
    subst hb
    simp [parsePair, parseNatTok] at h

theorem lookupPair_insertPair (m : List (Nat × Nat)) (s v : Nat) :
    lookupPair (insertPair m s v) s = some v := by
  induction m with
  | nil => simp [insertPair, lookupPair, List.find?]
  | cons p t ih =>
    simp only [insertPair]
    by_cases hp : p.1 = s
    · rw [if_pos hp]
      simp [lookupPair, List.find?]
    · rw [if_neg hp]
      simp only [lookupPair] at ih ⊢
      rw [List.find?_cons_of_neg _ (by simpa using hp)]
      exact ih

/-- Claim C8: `read_state_labels` fails with a descriptive error when the
file cannot be opened; a line that is empty after removing everything
from `#` to the end of the line is ignored; a non-ignored line that does
not parse as a state id followed by an unsigned value aborts with a
syntax error; a parsed line whose state id is not in the automaton aborts
naming the state; otherwise the line's value is recorded for its state id
(later lines overwrite earlier ones) and processing continues. -/
theorem read_state_labels_spec (nfa : Nfa) (acc : List (Nat × Nat))
    (l : List Char) (ls : List (List Char)) (s v : Nat) :
    read_state_labels nfa none = Except.error "error loading NFA" ∧
    ((stripComment l).isEmpty = true → rslAux nfa acc (l :: ls) = rslAux nfa acc ls) ∧
    ((stripComment l).isEmpty = false → parsePair (stripComment l) = none →
      rslAux nfa acc (l :: ls) = Except.error "invalid state labels syntax") ∧
    (parsePair (stripComment l) = some (s, v) → nfa.is_state s = false →
      rslAux nfa acc (l :: ls) = Except.error ("invalid NFA state: " ++ toString s)) ∧
    (parsePair (stripComment l) = some (s, v) → nfa.is_state s = true →
      rslAux nfa acc (l :: ls) = rslAux nfa (insertPair acc s v) ls ∧
        lookupPair (insertPair acc s v) s = some v) := by
  refine ⟨rfl, ?_, ?_, ?_, ?_⟩
  · intro he
    simp [rslAux, he]
  · intro he hp
    simp [rslAux, he, hp]
  · intro hp hstate
    simp [rslAux, parsePair_ne_nil hp, hp, hstate]
  · intro hp hstate
    exact ⟨by simp [rslAux, parsePair_ne_nil hp, hp, hstate],
      lookupPair_insertPair acc s v⟩

/-- Witness for C8: automaton with state 3, line `3 7`. -/
theorem read_state_labels_spec_witness :
    rslAux ⟨[3]⟩ [] [['3', ' ', '7']] = Except.ok [(3, 7)] ∧
    lookupPair [(3, 7)] 3 = some 7 := by
  have h := (read_state_labels_spec ⟨[3]⟩ [] ['3', ' ', '7'] [] 3 7).2.2.2.2
    (by decide) (by decide)
  exact ⟨h.1.trans rfl, h.2⟩

end Ahofa
